import Mathlib

/-!
# Verification of the JavaScript availability linter (`src/build/check/js/linter.rs`)

This file gives a shallow embedding of the linter core in `linter.rs` and proves
properties of it.  The linter walks a parsed JavaScript syntax tree and checks
free identifier references against an availability policy made of two name
lists (`unavailable`, available only in the request context).

Modelling choices, in order of appearance:

* A Rust `Result<(), failure::Error>` returned by a `lint` call is modelled by
  `LintResult`.  Since four of the `Lintable` implementations in the source are
  `todo!()` (which panics and unwinds through every caller), the outcome type
  has a third constructor `panicked` beside `ok` and `err`; `?`-propagation and
  `try_for_each` short-circuit on both `err` and `panicked` (a panic unwinds
  past `?` just as an error returns through it).
* `failure::Error` values are modelled by the inductive `LintError`.  The only
  error construction visible in the source is `format_err!("Thanks for
  providing us with a source map! ... {}", error)`, modelled by the
  constructor `LintError.sourceMapWrapped` (the wrap keeps the whole original
  error and adds no position data, exactly like the format string).  Policy
  violations themselves are produced by the expression linter, which the
  source leaves as `todo!()`; the constructor `LintError.policyViolation` is
  modelled from the spec (section 7a: offending name, tree position, and which
  list triggered it).
* The AST types (`Stmt`, `BlockStmt`, ...) come from the external crate
  `swc_ecma_ast`; they are modelled at the interface boundary with exactly the
  fields the linter reads.  `Expr`, `Pat`, `Decl` and `VarDecl` are opaque to
  the statement walker (their `lint` impls are stubs), so they are modelled
  minimally: `Expr` keeps an identifier form (needed to express policy
  violations), the others are placeholder shapes.
* The statement walker is translated function by function from the source.
  Because the four leaf `Lintable` impls (`Expr`, `Decl`, `Pat`, `VarDecl`)
  are the unfinished part of the source, the walker is parameterised by a
  `LeafLinter` record holding those four functions.  `todoLeaf` is the literal
  translation of the source (every leaf panics); `specLeaf` is modelled from
  the spec (sections 4.1 and 4.4) and produces real policy violations, making
  the error paths of the walker reachable.
-/

/-- `ExpressionList` is defined outside the file in scope (`super::ExpressionList`).
Modelled from the spec: a set of interned names (section 3, AvailabilityPolicy),
represented as a list of strings. -/
abbrev ExpressionList := List String

/-- An original-source position, as reported by the external source-map
collaborator (spec section 6: file, line, column). -/
structure OrigPos where
  file : String
  line : Nat
  col : Nat
deriving DecidableEq, Repr

/-- The external `sourcemap::SourceMap` collaborator, modelled at its interface
boundary (spec section 6): a read-only mapping from a generated/tree position
to an original position or none ("unmapped"). -/
structure SourceMap where
  lookup : Nat → Option OrigPos

/-- `type ScriptLinterArgs<'a> = (Option<&'a SourceMap>, ExpressionList, ExpressionList)` -/
abbrev ScriptLinterArgs := Option SourceMap × ExpressionList × ExpressionList

/-- `type AstNodeLinterArgs<'a> = (bool, &'a ExpressionList, &'a ExpressionList)` -/
abbrev AstNodeLinterArgs := Bool × ExpressionList × ExpressionList

/-- Model of `failure::Error` values occurring in the linter.
`policyViolation` is modelled from the spec (section 7a): the offending name,
its tree position, and which list triggered it (`fromUnavailable = true` for
the `unavailable` list, `false` for the request-only list).
`sourceMapWrapped` models the `format_err!` wrap in `match_error_to_source_map`:
a fixed message text around the full original error, with no position data. -/
inductive LintError where
  | policyViolation (name : String) (pos : Nat) (fromUnavailable : Bool)
  | sourceMapWrapped (inner : LintError)
deriving DecidableEq, Repr

/-- The human-readable message of an error, mirroring the `format_err!` call at
line 45 of the source for the source-map wrap. -/
def LintError.message : LintError → String
  | .policyViolation name _ true =>
      "identifier " ++ name ++ " is not available"
  | .policyViolation name _ false =>
      "identifier " ++ name ++ " is only available in the request context"
  | .sourceMapWrapped inner =>
      "Thanks for providing us with a source map! Soon hopefully we will be able to tell you what part of your original source code is bad. Unfortunately, for now, all we can say is\n"
        ++ inner.message

/-- Outcome of a `lint` call: `Ok(())`, `Err(e)`, or a `todo!()` panic that
unwinds through every caller. -/
inductive LintResult where
  | ok
  | err (e : LintError)
  | panicked
deriving DecidableEq, Repr

/-- Sequencing of lint calls: models both the `?` operator and the
short-circuiting of `Iterator::try_for_each` on the first non-`Ok` outcome.
A panic also short-circuits, because unwinding propagates through the caller. -/
def LintResult.andThen : LintResult → (Unit → LintResult) → LintResult
  | .ok, k => k ()
  | .err e, _ => .err e
  | .panicked, _ => .panicked

/-- Minimal model of `swc_ecma_ast::Expr`, whose `Lintable` impl is a stub in
the source: an identifier reference (carrying its symbol and tree position) or
any other, non-identifier expression. -/
inductive Expr where
  | ident (sym : String) (pos : Nat)
  | lit
deriving DecidableEq, Repr

/-- Minimal model of `swc_ecma_ast::Pat` (opaque to the statement walker). -/
inductive Pat where
  | ident (sym : String)
deriving DecidableEq, Repr

/-- Minimal model of `swc_ecma_ast::VarDecl` (opaque to the statement walker). -/
inductive VarDecl where
  | mk
deriving DecidableEq, Repr

/-- Minimal model of `swc_ecma_ast::Decl` (opaque to the statement walker). -/
inductive Decl where
  | var (d : VarDecl)
  | other
deriving DecidableEq, Repr

/-- `swc_ecma_ast::VarDeclOrExpr` (the `init` of a `ForStmt`). -/
inductive VarDeclOrExpr where
  | varDecl (d : VarDecl)
  | expr (e : Expr)
deriving DecidableEq, Repr

/-- `swc_ecma_ast::VarDeclOrPat` (the `left` of `ForInStmt` / `ForOfStmt`). -/
inductive VarDeclOrPat where
  | varDecl (d : VarDecl)
  | pat (p : Pat)
deriving DecidableEq, Repr

mutual

/-- `swc_ecma_ast::Stmt`, with exactly the nineteen variants the walker
matches on (lines 68 to 107 of the source). `Break` and `Continue` carry their
optional label, which the walker ignores. -/
inductive Stmt where
  | Block (statement : BlockStmt)
  | Empty
  | Debugger
  | With (statement : WithStmt)
  | Return (statement : ReturnStmt)
  | Labeled (statement : LabeledStmt)
  | Break (label : Option String)
  | Continue (label : Option String)
  | If (statement : IfStmt)
  | Switch (statement : SwitchStmt)
  | Throw (statement : ThrowStmt)
  | Try (statement : TryStmt)
  | While (statement : WhileStmt)
  | DoWhile (statement : DoWhileStmt)
  | For (statement : ForStmt)
  | ForIn (statement : ForInStmt)
  | ForOf (statement : ForOfStmt)
  | Decl (statement : Decl)
  | Expr (statement : ExprStmt)

/-- `swc_ecma_ast::BlockStmt`: the statements between curly braces. -/
inductive BlockStmt where
  | mk (stmts : List Stmt)

/-- `swc_ecma_ast::WithStmt`: object expression and body. -/
inductive WithStmt where
  | mk (obj : Expr) (body : Stmt)

/-- `swc_ecma_ast::ReturnStmt`: optional returned expression. -/
inductive ReturnStmt where
  | mk (arg : Option Expr)

/-- `swc_ecma_ast::LabeledStmt`: label and labeled body. -/
inductive LabeledStmt where
  | mk (label : String) (body : Stmt)

/-- `swc_ecma_ast::IfStmt`: test, consequent, optional alternative. -/
inductive IfStmt where
  | mk (test : Expr) (cons : Stmt) (alt : Option Stmt)

/-- `swc_ecma_ast::SwitchCase`: optional test (absent for `default`) and body. -/
inductive SwitchCase where
  | mk (test : Option Expr) (cons : List Stmt)

/-- `swc_ecma_ast::SwitchStmt`: discriminant and cases. -/
inductive SwitchStmt where
  | mk (discriminant : Expr) (cases : List SwitchCase)

/-- `swc_ecma_ast::ThrowStmt`: the thrown expression. -/
inductive ThrowStmt where
  | mk (arg : Expr)

/-- `swc_ecma_ast::CatchClause`: optional caught pattern and handler body. -/
inductive CatchClause where
  | mk (param : Option Pat) (body : BlockStmt)

/-- `swc_ecma_ast::TryStmt`: try block, optional catch clause, optional
finalizer. -/
inductive TryStmt where
  | mk (block : BlockStmt) (handler : Option CatchClause) (finalizer : Option BlockStmt)

/-- `swc_ecma_ast::WhileStmt`: test and body. -/
inductive WhileStmt where
  | mk (test : Expr) (body : Stmt)

/-- `swc_ecma_ast::DoWhileStmt`: test and body. -/
inductive DoWhileStmt where
  | mk (test : Expr) (body : Stmt)

/-- `swc_ecma_ast::ForStmt`: optional initializer, test and update, and body. -/
inductive ForStmt where
  | mk (init : Option VarDeclOrExpr) (test : Option Expr) (update : Option Expr) (body : Stmt)

/-- `swc_ecma_ast::ForInStmt`: left binding, right expression, body. -/
inductive ForInStmt where
  | mk (left : VarDeclOrPat) (right : Expr) (body : Stmt)

/-- `swc_ecma_ast::ForOfStmt`: left binding, right expression, body. -/
inductive ForOfStmt where
  | mk (left : VarDeclOrPat) (right : Expr) (body : Stmt)

/-- `swc_ecma_ast::ExprStmt`: an expression in statement position. -/
inductive ExprStmt where
  | mk (expr : Expr)

end

/-- `swc_ecma_ast::Script`: a script is its list of body statements. -/
structure Script where
  body : List Stmt

/-- The four leaf `Lintable` implementations the statement walker delegates to
(`Expr`, `Decl`, `Pat`, `VarDecl`; lines 314 to 336 of the source).  They are
the unfinished part of the source, so the walker is parameterised by them:
`todoLeaf` below is the literal source (every leaf is `todo!()`), `specLeaf`
is modelled from the spec. -/
structure LeafLinter where
  lintExpr : Expr → AstNodeLinterArgs → LintResult
  lintDecl : Decl → AstNodeLinterArgs → LintResult
  lintPat : Pat → AstNodeLinterArgs → LintResult
  lintVarDecl : VarDecl → AstNodeLinterArgs → LintResult

mutual

/-- `impl Lintable<AstNodeLinterArgs> for Vec<Stmt>` (lines 58 to 63):
`self.iter().try_for_each(|statement| statement.lint(args))`. -/
def lintStmtVec (L : LeafLinter) (stmts : List Stmt) (args : AstNodeLinterArgs) :
    LintResult :=
  match stmts with
  | [] => .ok
  | statement :: rest =>
      (Stmt.lint L statement args).andThen fun _ => lintStmtVec L rest args

/-- `impl Lintable<AstNodeLinterArgs> for Stmt` (lines 65 to 109): dispatch on
the statement variant. -/
def Stmt.lint (L : LeafLinter) (s : Stmt) (args : AstNodeLinterArgs) : LintResult :=
  match s with
  | .Block statement => BlockStmt.lint L statement args
  | .Empty => .ok
  | .Debugger => .ok
  | .With statement => WithStmt.lint L statement args
  | .Return statement => ReturnStmt.lint L statement args
  | .Labeled statement => LabeledStmt.lint L statement args
  | .Break _ => .ok
  | .Continue _ => .ok
  | .If statement => IfStmt.lint L statement args
  | .Switch statement => SwitchStmt.lint L statement args
  | .Throw statement => ThrowStmt.lint L statement args
  | .Try statement => TryStmt.lint L statement args
  | .While statement => WhileStmt.lint L statement args
  | .DoWhile statement => DoWhileStmt.lint L statement args
  | .For statement => ForStmt.lint L statement args
  | .ForIn statement => ForInStmt.lint L statement args
  | .ForOf statement => ForOfStmt.lint L statement args
  | .Decl statement => L.lintDecl statement args
  | .Expr statement => ExprStmt.lint L statement args

/-- `impl Lintable<AstNodeLinterArgs> for BlockStmt` (lines 115 to 119):
`self.stmts.lint(args)`. -/
def BlockStmt.lint (L : LeafLinter) (b : BlockStmt) (args : AstNodeLinterArgs) :
    LintResult :=
  match b with
  | .mk stmts => lintStmtVec L stmts args

/-- `impl Lintable<AstNodeLinterArgs> for WithStmt` (lines 134 to 140):
`self.obj.lint(args)?; self.body.lint(args)?; Ok(())`. -/
def WithStmt.lint (L : LeafLinter) (s : WithStmt) (args : AstNodeLinterArgs) :
    LintResult :=
  match s with
  | .mk obj body =>
      (L.lintExpr obj args).andThen fun _ =>
      (Stmt.lint L body args).andThen fun _ => .ok

/-- `impl Lintable<AstNodeLinterArgs> for ReturnStmt` (lines 144 to 152):
lint the argument if present, else `Ok(())`. -/
def ReturnStmt.lint (L : LeafLinter) (s : ReturnStmt) (args : AstNodeLinterArgs) :
    LintResult :=
  match s with
  | .mk (some expression) => L.lintExpr expression args
  | .mk none => .ok

/-- `impl Lintable<AstNodeLinterArgs> for LabeledStmt` (lines 156 to 160):
`self.body.lint(args)`. -/
def LabeledStmt.lint (L : LeafLinter) (s : LabeledStmt) (args : AstNodeLinterArgs) :
    LintResult :=
  match s with
  | .mk _label body => Stmt.lint L body args

/-- `impl Lintable<AstNodeLinterArgs> for IfStmt` (lines 168 to 179):
test, consequent, then optional alternative. -/
def IfStmt.lint (L : LeafLinter) (s : IfStmt) (args : AstNodeLinterArgs) :
    LintResult :=
  match s with
  | .mk test cons alt =>
      (L.lintExpr test args).andThen fun _ =>
      (Stmt.lint L cons args).andThen fun _ =>
      match alt with
      | some elseStatement => Stmt.lint L elseStatement args
      | none => .ok

/-- The closure body of `SwitchStmt::lint` for a single case (lines 187 to
192): the optional test, then the consequent statements. -/
def SwitchCase.lintOne (L : LeafLinter) (c : SwitchCase) (args : AstNodeLinterArgs) :
    LintResult :=
  match c with
  | .mk test cons =>
      (match test with
       | some expression => L.lintExpr expression args
       | none => .ok).andThen fun _ =>
      lintStmtVec L cons args

/-- The `try_for_each` over the cases of a switch (line 187). -/
def lintSwitchCases (L : LeafLinter) (cases : List SwitchCase) (args : AstNodeLinterArgs) :
    LintResult :=
  match cases with
  | [] => .ok
  | c :: rest =>
      (SwitchCase.lintOne L c args).andThen fun _ => lintSwitchCases L rest args

/-- `impl Lintable<AstNodeLinterArgs> for SwitchStmt` (lines 184 to 194):
the discriminant, then each case in source order. -/
def SwitchStmt.lint (L : LeafLinter) (s : SwitchStmt) (args : AstNodeLinterArgs) :
    LintResult :=
  match s with
  | .mk discriminant cases =>
      (L.lintExpr discriminant args).andThen fun _ => lintSwitchCases L cases args

/-- `impl Lintable<AstNodeLinterArgs> for ThrowStmt` (lines 198 to 202):
`self.arg.lint(args)`. -/
def ThrowStmt.lint (L : LeafLinter) (s : ThrowStmt) (args : AstNodeLinterArgs) :
    LintResult :=
  match s with
  | .mk arg => L.lintExpr arg args

/-- `impl Lintable<AstNodeLinterArgs> for TryStmt` (lines 209 to 232): the try
block, then (if present) the handler body, then (if present) the caught
pattern, then (if present) the finalizer. -/
def TryStmt.lint (L : LeafLinter) (s : TryStmt) (args : AstNodeLinterArgs) :
    LintResult :=
  match s with
  | .mk block handler finalizer =>
      (BlockStmt.lint L block args).andThen fun _ =>
      (match handler with
       | some (CatchClause.mk param hbody) =>
           (BlockStmt.lint L hbody args).andThen fun _ =>
           match param with
           | some pattern => L.lintPat pattern args
           | none => .ok
       | none => .ok).andThen fun _ =>
      match finalizer with
      | some finallyBlock => BlockStmt.lint L finallyBlock args
      | none => .ok

/-- `impl Lintable<AstNodeLinterArgs> for WhileStmt` (lines 237 to 242):
`self.test.lint(args)?; self.body.lint(args)`. -/
def WhileStmt.lint (L : LeafLinter) (s : WhileStmt) (args : AstNodeLinterArgs) :
    LintResult :=
  match s with
  | .mk test body =>
      (L.lintExpr test args).andThen fun _ => Stmt.lint L body args

/-- `impl Lintable<AstNodeLinterArgs> for DoWhileStmt` (lines 247 to 252):
`self.test.lint(args)?; self.body.lint(args)` (test first, like `while`). -/
def DoWhileStmt.lint (L : LeafLinter) (s : DoWhileStmt) (args : AstNodeLinterArgs) :
    LintResult :=
  match s with
  | .mk test body =>
      (L.lintExpr test args).andThen fun _ => Stmt.lint L body args

/-- `impl Lintable<AstNodeLinterArgs> for ForStmt` (lines 269 to 287):
initializer, test, update, body. -/
def ForStmt.lint (L : LeafLinter) (s : ForStmt) (args : AstNodeLinterArgs) :
    LintResult :=
  match s with
  | .mk init test update body =>
      (match init with
       | some (VarDeclOrExpr.varDecl declaration) => L.lintVarDecl declaration args
       | some (VarDeclOrExpr.expr expression) => L.lintExpr expression args
       | none => .ok).andThen fun _ =>
      (match test with
       | some expression => L.lintExpr expression args
       | none => .ok).andThen fun _ =>
      (match update with
       | some expression => L.lintExpr expression args
       | none => .ok).andThen fun _ =>
      Stmt.lint L body args

/-- `impl Lintable<AstNodeLinterArgs> for ForInStmt` (lines 290 to 296):
left, right, body. -/
def ForInStmt.lint (L : LeafLinter) (s : ForInStmt) (args : AstNodeLinterArgs) :
    LintResult :=
  match s with
  | .mk left right body =>
      (VarDeclOrPat.lint L left args).andThen fun _ =>
      (L.lintExpr right args).andThen fun _ =>
      Stmt.lint L body args

/-- `impl Lintable<AstNodeLinterArgs> for ForOfStmt` (lines 300 to 306):
left, right, body. -/
def ForOfStmt.lint (L : LeafLinter) (s : ForOfStmt) (args : AstNodeLinterArgs) :
    LintResult :=
  match s with
  | .mk left right body =>
      (VarDeclOrPat.lint L left args).andThen fun _ =>
      (L.lintExpr right args).andThen fun _ =>
      Stmt.lint L body args

/-- `impl Lintable<AstNodeLinterArgs> for ExprStmt` (lines 308 to 312):
`self.expr.lint(args)`. -/
def ExprStmt.lint (L : LeafLinter) (s : ExprStmt) (args : AstNodeLinterArgs) :
    LintResult :=
  match s with
  | .mk expression => L.lintExpr expression args

/-- `impl Lintable<AstNodeLinterArgs> for VarDeclOrPat` (lines 338 to 345):
dispatch to the declaration or the pattern. -/
def VarDeclOrPat.lint (L : LeafLinter) (v : VarDeclOrPat) (args : AstNodeLinterArgs) :
    LintResult :=
  match v with
  | .varDecl declaration => L.lintVarDecl declaration args
  | .pat pattern => L.lintPat pattern args

end

/-- `match_error_to_source_map` (lines 41 to 46 of the source): despite taking
the source map, it performs no position translation at all; it always returns
`Ok` of the original error wrapped in a fixed message. -/
def match_error_to_source_map (error : LintError) (sourceMap : SourceMap) :
    Except LintError LintError :=
  Except.ok (.sourceMapWrapped error)

/-- `impl Lintable<ScriptLinterArgs> for Script` (lines 18 to 35 of the
source): lint the body with the request-context flag `false`; on an error,
wrap it through `match_error_to_source_map` when a source map was supplied
(the `Except.error` arm is the `?` operator, which also returns the error). -/
def Script.lint (L : LeafLinter) (s : Script) : ScriptLinterArgs → LintResult
  | (sourceMap, unavailable, availableInRequestContext) =>
      match lintStmtVec L s.body (false, unavailable, availableInRequestContext) with
      | .err error =>
          (match sourceMap with
           | some map =>
               match match_error_to_source_map error map with
               | Except.ok e => LintResult.err e
               | Except.error e => LintResult.err e
           | none => LintResult.err error)
      | .ok => .ok
      | .panicked => .panicked

/-- The literal leaf linters of the source: all four implementations (lines
314 to 336) are `todo!()`, which panics. -/
def todoLeaf : LeafLinter where
  lintExpr := fun _ _ => .panicked
  lintDecl := fun _ _ => .panicked
  lintPat := fun _ _ => .panicked
  lintVarDecl := fun _ _ => .panicked

/-- Modelled from the spec: the expression linter the source leaves as
`todo!()`.  Spec section 4.1: an identifier-reference expression that is free
is checked against the availability policy under the current lifetime context.
Spec section 4.4: a name in `unavailable` is never permitted; otherwise a name
in the request-only list is permitted iff the context is the request lifetime;
otherwise permitted.  At the points these claims exercise (top-level
statements, no enclosing binders) every identifier is free, so no scope stack
is needed.  Declarations and patterns only bind names (section 4.2) and our
minimal models of them carry no sub-expressions, so they lint to `Ok`. -/
def specLeaf : LeafLinter where
  lintExpr := fun e args =>
    match e, args with
    | .ident sym pos, (inRequestContext, unavailable, availableInRequestContext) =>
        if unavailable.contains sym then
          .err (.policyViolation sym pos true)
        else if availableInRequestContext.contains sym && !inRequestContext then
          .err (.policyViolation sym pos false)
        else
          .ok
    | .lit, _ => .ok
  lintDecl := fun _ _ => .ok
  lintPat := fun _ _ => .ok
  lintVarDecl := fun _ _ => .ok

/-- Two successive lint passes over the same tree with the same arguments
(spec section 8.6).  The tree, the policy lists and the source map are taken
by shared borrow in the source (`&self`, `&ExpressionList`, `Option<&SourceMap>`),
so a pass cannot mutate them; the embedding is accordingly a pure function of
the tree and the arguments, and the pair below records the two results. -/
def lintTwicePass (L : LeafLinter) (s : Script) (a : ScriptLinterArgs) :
    LintResult × LintResult :=
  (Script.lint L s a, Script.lint L s a)

/-- Sequencing yields `ok` exactly when both halves do (the shape of the `?`
operator and of `try_for_each`). -/
theorem LintResult.andThen_eq_ok {r : LintResult} {k : Unit → LintResult} :
    r.andThen k = .ok ↔ r = .ok ∧ k () = .ok := by
  cases r <;> simp [LintResult.andThen]

/-- C1: in a statement list (block or script body), linting visits the
statements in order and stops at the first one that fails: if every statement
of the prefix lints to `Ok` and the next statement fails with diagnostic `e`,
the whole list lints to exactly `Err e`, whatever statements (including
further violations) follow — so no statement after the failing one is
traversed, and a pass either fully succeeds or surfaces exactly the first
violation in traversal order. -/
theorem lintStmtVec_fail_fast (L : LeafLinter) (args : AstNodeLinterArgs)
    (pre : List Stmt) (s : Stmt) (post : List Stmt) (e : LintError)
    (hpre : lintStmtVec L pre args = .ok)
    (hs : Stmt.lint L s args = .err e) :
    lintStmtVec L (pre ++ s :: post) args = .err e := by
  induction pre with
  | nil =>
      simp only [List.nil_append, lintStmtVec, hs, LintResult.andThen]
  | cons a rest ih =>
      rw [lintStmtVec] at hpre
      rw [LintResult.andThen_eq_ok] at hpre
      simp only [List.cons_append, lintStmtVec, hpre.1, LintResult.andThen]
      exact ih hpre.2

/-- C1 witness: a list with two violations (`alpha` at position 4, `beta` at
position 9) after a harmless statement reports exactly the first one. -/
theorem lintStmtVec_fail_fast_witness :
    lintStmtVec specLeaf [Stmt.Empty] (false, ["alpha", "beta"], []) = .ok ∧
    Stmt.lint specLeaf (.Expr (.mk (.ident "alpha" 4))) (false, ["alpha", "beta"], []) =
      .err (.policyViolation "alpha" 4 true) ∧
    lintStmtVec specLeaf
      ([Stmt.Empty] ++ Stmt.Expr (.mk (.ident "alpha" 4)) ::
        [Stmt.Expr (.mk (.ident "beta" 9))]) (false, ["alpha", "beta"], []) =
      .err (.policyViolation "alpha" 4 true) :=
  ⟨rfl, rfl,
    lintStmtVec_fail_fast specLeaf (false, ["alpha", "beta"], []) [Stmt.Empty]
      (Stmt.Expr (.mk (.ident "alpha" 4))) [Stmt.Expr (.mk (.ident "beta" 9))]
      (.policyViolation "alpha" 4 true) rfl rfl⟩

/-- C3: the `Lintable` implementations for `Expr`, `Decl`, `Pat` and `VarDecl`
are `todo!()` stubs, so under the literal leaf linters of the source every
such node panics instead of returning `Ok` or a diagnostic, and so does the
lint of any statement or script whose traversal reaches one (an expression
statement, an `if` test, a `return` argument, a `while` test, ...). -/
theorem leaf_stubs_diverge (args : AstNodeLinterArgs) :
    (∀ e : Expr, todoLeaf.lintExpr e args = .panicked) ∧
    (∀ d : Decl, todoLeaf.lintDecl d args = .panicked) ∧
    (∀ p : Pat, todoLeaf.lintPat p args = .panicked) ∧
    (∀ v : VarDecl, todoLeaf.lintVarDecl v args = .panicked) ∧
    (∀ e : Expr, Stmt.lint todoLeaf (.Expr (.mk e)) args = .panicked) ∧
    (∀ (test : Expr) (cons : Stmt) (alt : Option Stmt),
      Stmt.lint todoLeaf (.If (.mk test cons alt)) args = .panicked) ∧
    (∀ (test : Expr) (body : Stmt),
      Stmt.lint todoLeaf (.While (.mk test body)) args = .panicked) ∧
    (∀ a : Expr, Stmt.lint todoLeaf (.Return (.mk (some a))) args = .panicked) ∧
    (∀ (e : Expr) (tail : List Stmt) (sa : ScriptLinterArgs),
      Script.lint todoLeaf ⟨Stmt.Expr (.mk e) :: tail⟩ sa = .panicked) := by
  refine ⟨fun _ => rfl, fun _ => rfl, fun _ => rfl, fun _ => rfl,
    fun _ => rfl, fun _ _ _ => rfl, fun _ _ => rfl, fun _ => rfl, ?_⟩
  intro e tail sa
  obtain ⟨m, u, r⟩ := sa
  simp [Script.lint, lintStmtVec, Stmt.lint, ExprStmt.lint, todoLeaf, LintResult.andThen]

/-- C8: empty, debugger, break and continue statements lint to `Ok` for every
leaf linter, every context flag and every pair of policy lists, producing no
diagnostic. -/
theorem noop_stmts_lint_ok (L : LeafLinter) (args : AstNodeLinterArgs)
    (breakLabel continueLabel : Option String) :
    Stmt.lint L .Empty args = .ok ∧
    Stmt.lint L .Debugger args = .ok ∧
    Stmt.lint L (.Break breakLabel) args = .ok ∧
    Stmt.lint L (.Continue continueLabel) args = .ok :=
  ⟨rfl, rfl, rfl, rfl⟩

/-- C9: linting a labeled statement returns exactly the result of linting its
body with the identical arguments (same context flag, same policy lists); the
label itself is never examined. -/
theorem labeled_lint_transparent (L : LeafLinter) (args : AstNodeLinterArgs)
    (label : String) (body : Stmt) :
    Stmt.lint L (.Labeled (.mk label body)) args = Stmt.lint L body args :=
  rfl

/-- C10: linting the same tree twice with the same arguments yields the same
result both times, and each pass equals a single pass.  The tree, the policy
lists and the source map are taken by shared borrow in the source, so a pass
cannot mutate them; the embedding is accordingly a pure function and a second
pass sees exactly the same inputs. -/
theorem lint_idempotent (L : LeafLinter) (s : Script) (a : ScriptLinterArgs) :
    (lintTwicePass L s a).1 = (lintTwicePass L s a).2 ∧
    (lintTwicePass L s a).1 = Script.lint L s a :=
  ⟨rfl, rfl⟩

/-- A source map that covers every position, reporting original position
`original.js`, line 3, column 7. -/
def coveringSourceMap : SourceMap :=
  ⟨fun _ => some ⟨"original.js", 3, 7⟩⟩

/-- C2: the source performs no source-map translation.  For a violation at
tree position 5 whose position the supplied map covers (it reports
`original.js`, line 3, column 7), the diagnostic returned to the caller is the
untranslated diagnostic (still carrying tree position 5) wrapped in a fixed
message; moreover `match_error_to_source_map` returns the same value for every
source map, so the reported position cannot equal what the map reports. -/
theorem source_map_not_translated :
    Script.lint specLeaf ⟨[Stmt.Expr (.mk (.ident "badApi" 5))]⟩
        (some coveringSourceMap, ["badApi"], []) =
      .err (.sourceMapWrapped (.policyViolation "badApi" 5 true)) ∧
    coveringSourceMap.lookup 5 = some ⟨"original.js", 3, 7⟩ ∧
    (∀ (e : LintError) (m mSecond : SourceMap),
      match_error_to_source_map e m = match_error_to_source_map e mSecond) :=
  ⟨rfl, rfl, fun _ _ _ => rfl⟩

/-- C4: the caller-facing entry point lints the script body with the
request-context flag set to `false` — without a source map the result of the
pass is exactly the result of linting the body under `false` — and therefore,
with the spec-modelled expression linter, a free reference to a name on the
request-only list (and not on the unavailable list) at the top level of a
script fails with the request-only policy violation. -/
theorem script_lint_top_level_not_request :
    (∀ (L : LeafLinter) (u r : ExpressionList) (s : Script),
      Script.lint L s (none, u, r) = lintStmtVec L s.body (false, u, r)) ∧
    (∀ (u r : ExpressionList) (n : String) (p : Nat),
      r.contains n = true → u.contains n = false →
      Script.lint specLeaf ⟨[Stmt.Expr (.mk (.ident n p))]⟩ (none, u, r) =
        .err (.policyViolation n p false)) := by
  constructor
  · intro L u r s
    cases h : lintStmtVec L s.body (false, u, r) <;> simp [Script.lint, h]
  · intro u r n p hr hu
    have hu2 : ¬ n ∈ u := by simpa using hu
    have hr2 : n ∈ r := by simpa using hr
    simp [Script.lint, lintStmtVec, Stmt.lint, ExprStmt.lint, specLeaf, hr2, hu2,
      LintResult.andThen]

/-- C4 witness: with `request_only = [requestData]` and an empty unavailable
list, the script `requestData;` fails at top level with the request-only
violation. -/
theorem script_lint_top_level_not_request_witness :
    (["requestData"] : ExpressionList).contains "requestData" = true ∧
    ([] : ExpressionList).contains "requestData" = false ∧
    Script.lint specLeaf ⟨[Stmt.Expr (.mk (.ident "requestData" 2))]⟩
        (none, [], ["requestData"]) =
      .err (.policyViolation "requestData" 2 false) :=
  ⟨rfl, rfl,
    script_lint_top_level_not_request.2 [] ["requestData"] "requestData" 2 rfl rfl⟩

/-- C5: a violation produced by the body traversal is never dropped or
escalated by the source-map handling: whatever the optional source map, the
pass result is an error — the wrapped original diagnostic when a map is
supplied (translation never fails hard; the wrap keeps the whole diagnostic),
and the untranslated diagnostic itself when no map is supplied. -/
theorem script_lint_preserves_violation (L : LeafLinter) (m : Option SourceMap)
    (u r : ExpressionList) (s : Script) (e : LintError)
    (h : lintStmtVec L s.body (false, u, r) = .err e) :
    Script.lint L s (m, u, r) =
      .err (match m with
            | some _ => LintError.sourceMapWrapped e
            | none => e) := by
  cases m <;> simp [Script.lint, h, match_error_to_source_map]

/-- C5 witness: a top-level violation, linted with a source map that does not
cover its position (the map reports nothing anywhere), still surfaces as an
error carrying the whole untranslated diagnostic. -/
theorem script_lint_preserves_violation_witness :
    lintStmtVec specLeaf [Stmt.Expr (.mk (.ident "gone" 1))] (false, ["gone"], []) =
      .err (.policyViolation "gone" 1 true) ∧
    Script.lint specLeaf ⟨[Stmt.Expr (.mk (.ident "gone" 1))]⟩
        (some ⟨fun _ => none⟩, ["gone"], []) =
      .err (.sourceMapWrapped (.policyViolation "gone" 1 true)) :=
  ⟨rfl,
    script_lint_preserves_violation specLeaf (some ⟨fun _ => none⟩) ["gone"] []
      ⟨[Stmt.Expr (.mk (.ident "gone" 1))]⟩ (.policyViolation "gone" 1 true) rfl⟩

/-- C6: a try statement is linted in the order try block, then (if present)
the handler body, then (if present) the caught pattern, then (if present) the
finalizer, aborting at the first violation (later parts, present or not,
cannot change an earlier failure), and parts that are absent are skipped
without error. -/
theorem tryStmt_lint_order (L : LeafLinter) (args : AstNodeLinterArgs) :
    (∀ (b : BlockStmt) (h : Option CatchClause) (f : Option BlockStmt) (e : LintError),
      BlockStmt.lint L b args = .err e →
      TryStmt.lint L (.mk b h f) args = .err e) ∧
    (∀ (b : BlockStmt) (p : Option Pat) (hb : BlockStmt) (f : Option BlockStmt)
        (e : LintError),
      BlockStmt.lint L b args = .ok →
      BlockStmt.lint L hb args = .err e →
      TryStmt.lint L (.mk b (some (.mk p hb)) f) args = .err e) ∧
    (∀ (b : BlockStmt) (p : Pat) (hb : BlockStmt) (f : Option BlockStmt)
        (e : LintError),
      BlockStmt.lint L b args = .ok →
      BlockStmt.lint L hb args = .ok →
      L.lintPat p args = .err e →
      TryStmt.lint L (.mk b (some (.mk (some p) hb)) f) args = .err e) ∧
    (∀ (b hb f : BlockStmt) (e : LintError),
      BlockStmt.lint L b args = .ok →
      BlockStmt.lint L hb args = .ok →
      BlockStmt.lint L f args = .err e →
      TryStmt.lint L (.mk b (some (.mk none hb)) (some f)) args = .err e) ∧
    (∀ (b f : BlockStmt) (e : LintError),
      BlockStmt.lint L b args = .ok →
      BlockStmt.lint L f args = .err e →
      TryStmt.lint L (.mk b none (some f)) args = .err e) ∧
    (∀ b : BlockStmt,
      BlockStmt.lint L b args = .ok →
      TryStmt.lint L (.mk b none none) args = .ok) := by
  have blockErr : ∀ (b : BlockStmt) (h : Option CatchClause) (f : Option BlockStmt)
      (e : LintError), BlockStmt.lint L b args = .err e →
      TryStmt.lint L (.mk b h f) args = .err e := by
    intro b h f e hb
    rcases h with _ | ⟨_ | p, hbody⟩ <;> rcases f with _ | f <;>
      simp [TryStmt.lint, hb, LintResult.andThen]
  have handlerErr : ∀ (b : BlockStmt) (p : Option Pat) (hb : BlockStmt)
      (f : Option BlockStmt) (e : LintError),
      BlockStmt.lint L b args = .ok → BlockStmt.lint L hb args = .err e →
      TryStmt.lint L (.mk b (some (.mk p hb)) f) args = .err e := by
    intro b p hb f e h1 h2
    rcases p with _ | p <;> rcases f with _ | f <;>
      simp [TryStmt.lint, h1, h2, LintResult.andThen]
  have patErr : ∀ (b : BlockStmt) (p : Pat) (hb : BlockStmt) (f : Option BlockStmt)
      (e : LintError),
      BlockStmt.lint L b args = .ok → BlockStmt.lint L hb args = .ok →
      L.lintPat p args = .err e →
      TryStmt.lint L (.mk b (some (.mk (some p) hb)) f) args = .err e := by
    intro b p hb f e h1 h2 h3
    rcases f with _ | f <;>
      simp [TryStmt.lint, h1, h2, h3, LintResult.andThen]
  have finalErr : ∀ (b hb f : BlockStmt) (e : LintError),
      BlockStmt.lint L b args = .ok → BlockStmt.lint L hb args = .ok →
      BlockStmt.lint L f args = .err e →
      TryStmt.lint L (.mk b (some (.mk none hb)) (some f)) args = .err e := by
    intro b hb f e h1 h2 h3
    simp [TryStmt.lint, h1, h2, h3, LintResult.andThen]
  have finalOnlyErr : ∀ (b f : BlockStmt) (e : LintError),
      BlockStmt.lint L b args = .ok → BlockStmt.lint L f args = .err e →
      TryStmt.lint L (.mk b none (some f)) args = .err e := by
    intro b f e h1 h2
    simp [TryStmt.lint, h1, h2, LintResult.andThen]
  have bare : ∀ b : BlockStmt, BlockStmt.lint L b args = .ok →
      TryStmt.lint L (.mk b none none) args = .ok := by
    intro b h1
    simp [TryStmt.lint, h1, LintResult.andThen]
  exact ⟨blockErr, handlerErr, patErr, finalErr, finalOnlyErr, bare⟩

/-- C6 witness: with a clean try block, a violation in the handler body (at
position 6) is reported even though the finalizer holds a later violation (at
position 11), and the caught pattern is present but not reached. -/
theorem tryStmt_lint_order_witness :
    BlockStmt.lint specLeaf (.mk []) (false, ["bad"], []) = .ok ∧
    BlockStmt.lint specLeaf (.mk [Stmt.Expr (.mk (.ident "bad" 6))])
        (false, ["bad"], []) = .err (.policyViolation "bad" 6 true) ∧
    TryStmt.lint specLeaf
        (.mk (.mk [])
          (some (.mk (some (.ident "caught")) (.mk [Stmt.Expr (.mk (.ident "bad" 6))])))
          (some (.mk [Stmt.Expr (.mk (.ident "bad" 11))])))
        (false, ["bad"], []) =
      .err (.policyViolation "bad" 6 true) :=
  ⟨rfl, rfl,
    (tryStmt_lint_order specLeaf (false, ["bad"], [])).2.1 (.mk [])
      (some (.ident "caught")) (.mk [Stmt.Expr (.mk (.ident "bad" 6))])
      (some (.mk [Stmt.Expr (.mk (.ident "bad" 11))]))
      (.policyViolation "bad" 6 true) rfl rfl⟩

/-- C7: `while` and `do-while` loops are linted test first: a violation in the
test is the loop result whatever the body holds (so the body is not
traversed), and when the test is clean the loop result is exactly the body
result. -/
theorem loop_lint_test_before_body (L : LeafLinter) (args : AstNodeLinterArgs) :
    (∀ (test : Expr) (body : Stmt) (e : LintError),
      L.lintExpr test args = .err e →
      WhileStmt.lint L (.mk test body) args = .err e) ∧
    (∀ (test : Expr) (body : Stmt),
      L.lintExpr test args = .ok →
      WhileStmt.lint L (.mk test body) args = Stmt.lint L body args) ∧
    (∀ (test : Expr) (body : Stmt) (e : LintError),
      L.lintExpr test args = .err e →
      DoWhileStmt.lint L (.mk test body) args = .err e) ∧
    (∀ (test : Expr) (body : Stmt),
      L.lintExpr test args = .ok →
      DoWhileStmt.lint L (.mk test body) args = Stmt.lint L body args) := by
  refine ⟨?_, ?_, ?_, ?_⟩
  · intro test body e h
    simp [WhileStmt.lint, h, LintResult.andThen]
  · intro test body h
    simp [WhileStmt.lint, h, LintResult.andThen]
  · intro test body e h
    simp [DoWhileStmt.lint, h, LintResult.andThen]
  · intro test body h
    simp [DoWhileStmt.lint, h, LintResult.andThen]

/-- C7 witness: a `while` loop whose test references an unavailable name (at
position 3) fails with that violation even though its body holds a later
violation (at position 8). -/
theorem loop_lint_test_before_body_witness :
    specLeaf.lintExpr (.ident "bad" 3) (false, ["bad"], []) =
      .err (.policyViolation "bad" 3 true) ∧
    WhileStmt.lint specLeaf
        (.mk (.ident "bad" 3) (.Expr (.mk (.ident "bad" 8)))) (false, ["bad"], []) =
      .err (.policyViolation "bad" 3 true) :=
  ⟨rfl,
    (loop_lint_test_before_body specLeaf (false, ["bad"], [])).1 (.ident "bad" 3)
      (.Expr (.mk (.ident "bad" 8))) (.policyViolation "bad" 3 true) rfl⟩
